import Mathlib

/-!
Verification development for the `Ai_healthcare_platform` setup scripts
(`data_downloader.py` and `setup_new_device.py`).

The scripts are sequential filesystem / network / process glue.  We embed
them shallowly:

* the filesystem and console are a `World` record (directories, files with
  byte contents, console lines, and a ghost trace of attempted URLs);
* the outcomes of the external operations (HTTP transfers, zip archives,
  package installs) are an `Env` of oracles, so every theorem quantifies
  over all possible behaviours of the outside world;
* Python exceptions are `Except Exn`; a `try/except` of the source becomes
  an explicit `match` on the `Except` value.

Machine-level detail the claims never touch (progress bars, exact byte
streaming chunk sizes) is abstracted: a transfer outcome is "fails before
the destination is opened", "fails after writing a part", or "completes
with a payload", exactly the distinctions visible in
`download_file_from_url` (requests.get / raise_for_status happen before
`open(destination, 'wb')`, the chunk loop after).
-/

/-- A filesystem path, as its list of components (`data/raw/chest_xray`
is `["data", "raw", "chest_xray"]`). -/
abbrev FPath : Type := List String

/-- File contents, as a list of bytes. -/
abbrev Bytes : Type := List Nat

/-- Render a path the way the Python source writes it in messages. -/
def pathStr (p : FPath) : String :=
  String.intercalate "/" p

/-- The observable state of a run: the directories that exist, the files
that exist (an association list, most recent write first), the console
output, and a ghost trace of the URLs passed to `download_file_from_url`
(used to state in which order candidates are attempted). -/
structure World where
  dirs : List FPath
  files : List (FPath × Bytes)
  console : List String
  attempts : List String
deriving DecidableEq

/-- Look a path up in an association list of files; the first (most
recently written) entry wins. -/
def lookupFile : List (FPath × Bytes) → FPath → Option Bytes
  | [], _ => none
  | e :: rest, p => if e.1 = p then some e.2 else lookupFile rest p

/-- The contents of the file at `p`, if one exists. -/
def getFile (w : World) (p : FPath) : Option Bytes :=
  lookupFile w.files p

/-- Write `v` to the file at `p` (Python `open(p, 'wb')` followed by the
writes: the previous contents are discarded). -/
def setFile (w : World) (p : FPath) (v : Bytes) : World :=
  { w with files := (p, v) :: w.files }

/-- Remove every entry for path `p` from an association list of files. -/
def eraseFile : List (FPath × Bytes) → FPath → List (FPath × Bytes)
  | [], _ => []
  | e :: rest, p => if e.1 = p then eraseFile rest p else e :: eraseFile rest p

/-- Delete the file at `p` (Python `os.remove(p)`). -/
def removeFileW (w : World) (p : FPath) : World :=
  { w with files := eraseFile w.files p }

/-- Print a line to the console. -/
def logMsg (w : World) (s : String) : World :=
  { w with console := w.console ++ [s] }

/-- Record that a directory exists (no error if it already does). -/
def insertDir (w : World) (p : FPath) : World :=
  if p ∈ w.dirs then w else { w with dirs := p :: w.dirs }

@[simp] theorem lookupFile_nil (p : FPath) : lookupFile [] p = none := rfl

@[simp] theorem lookupFile_cons (e : FPath × Bytes) (rest : List (FPath × Bytes)) (p : FPath) :
    lookupFile (e :: rest) p = if e.1 = p then some e.2 else lookupFile rest p := rfl

@[simp] theorem getFile_setFile (w : World) (p : FPath) (v : Bytes) (q : FPath) :
    getFile (setFile w p v) q = if q = p then some v else getFile w q := by
  show lookupFile ((p, v) :: w.files) q = _
  rw [lookupFile_cons]
  by_cases h : q = p
  · simp [h]
  · rw [if_neg h, if_neg (fun h2 => h h2.symm)]; rfl

theorem lookupFile_eraseFile (l : List (FPath × Bytes)) (p q : FPath) :
    lookupFile (eraseFile l p) q = if q = p then none else lookupFile l q := by
  induction l with
  | nil => simp [eraseFile]
  | cons e rest ih =>
    by_cases he : e.1 = p
    · rw [eraseFile, if_pos he, ih, lookupFile_cons]
      by_cases hq : q = p
      · rw [if_pos hq, if_pos hq]
      · have h2 : ¬(e.1 = q) := by rw [he]; exact fun h3 => hq h3.symm
        rw [if_neg hq, if_neg hq, if_neg h2]
    · rw [eraseFile, if_neg he, lookupFile_cons, lookupFile_cons, ih]
      by_cases hq : q = p
      · subst hq; rw [if_neg he, if_pos rfl, if_pos rfl]
      · rw [if_neg hq, if_neg hq]

@[simp] theorem getFile_removeFileW (w : World) (p q : FPath) :
    getFile (removeFileW w p) q = if q = p then none else getFile w q := by
  unfold getFile removeFileW
  exact lookupFile_eraseFile w.files p q

@[simp] theorem getFile_logMsg (w : World) (s : String) (q : FPath) :
    getFile (logMsg w s) q = getFile w q := rfl

@[simp] theorem dirs_setFile (w : World) (p : FPath) (v : Bytes) :
    (setFile w p v).dirs = w.dirs := rfl

@[simp] theorem dirs_removeFileW (w : World) (p : FPath) :
    (removeFileW w p).dirs = w.dirs := rfl

@[simp] theorem dirs_logMsg (w : World) (s : String) :
    (logMsg w s).dirs = w.dirs := rfl

@[simp] theorem files_logMsg (w : World) (s : String) :
    (logMsg w s).files = w.files := rfl

@[simp] theorem files_insertDir (w : World) (p : FPath) :
    (insertDir w p).files = w.files := by
  unfold insertDir; by_cases h : p ∈ w.dirs <;> simp [h]

@[simp] theorem console_setFile (w : World) (p : FPath) (v : Bytes) :
    (setFile w p v).console = w.console := rfl

@[simp] theorem console_removeFileW (w : World) (p : FPath) :
    (removeFileW w p).console = w.console := rfl

@[simp] theorem console_logMsg (w : World) (s : String) :
    (logMsg w s).console = w.console ++ [s] := rfl

@[simp] theorem console_insertDir (w : World) (p : FPath) :
    (insertDir w p).console = w.console := by
  unfold insertDir; by_cases h : p ∈ w.dirs <;> simp [h]

@[simp] theorem attempts_setFile (w : World) (p : FPath) (v : Bytes) :
    (setFile w p v).attempts = w.attempts := rfl

@[simp] theorem attempts_removeFileW (w : World) (p : FPath) :
    (removeFileW w p).attempts = w.attempts := rfl

@[simp] theorem attempts_logMsg (w : World) (s : String) :
    (logMsg w s).attempts = w.attempts := rfl

@[simp] theorem attempts_insertDir (w : World) (p : FPath) :
    (insertDir w p).attempts = w.attempts := by
  unfold insertDir; by_cases h : p ∈ w.dirs <;> simp [h]

@[simp] theorem mem_dirs_insertDir_self (w : World) (p : FPath) :
    p ∈ (insertDir w p).dirs := by
  unfold insertDir; by_cases h : p ∈ w.dirs <;> simp [h]

theorem mem_dirs_insertDir_of_mem (w : World) (p q : FPath) (h : q ∈ w.dirs) :
    q ∈ (insertDir w p).dirs := by
  unfold insertDir; by_cases hp : p ∈ w.dirs <;> simp [hp, h]

theorem insertDir_eq_of_mem (w : World) (p : FPath) (h : p ∈ w.dirs) :
    insertDir w p = w := by
  unfold insertDir; simp [h]

/-! ### Outcomes of external operations

`data_downloader.py` interacts with the network (`requests.get` plus the
chunked read in `download_file_from_url`, lines 46-69), with zip archives
(`zipfile.ZipFile(...).extractall`, lines 92-100 and 127-134) and, in
`setup_new_device.py`, with `pip` (`subprocess.check_call`, lines 33-39).
Each interaction's behaviour is an oracle in `Env`. -/

/-- A Python exception, named after the site that raises it. -/
inductive Exn where
  /-- `requests.get` raised (connection error, timeout, ...). -/
  | requestExn
  /-- `response.raise_for_status()` raised (HTTP error status). -/
  | statusExn
  /-- an exception during the chunked write loop. -/
  | writeExn
  /-- `zipfile.BadZipFile` or any other extraction failure. -/
  | zipExn
  /-- `subprocess.CalledProcessError` from `pip install`. -/
  | calledProcessExn
  /-- `FileExistsError` from `Path.mkdir`. -/
  | fileExistsExn
deriving DecidableEq

/-- What one attempt to fetch one URL does.  `requests.get` and
`raise_for_status` both run before `open(destination, 'wb')`, so their
failures leave the destination untouched; a failure inside the chunk loop
happens after the destination was opened (truncated) and some chunks were
written; a completed transfer writes the whole payload. -/
inductive AttemptOutcome where
  /-- `requests.get` raises; the destination is not touched. -/
  | requestFails
  /-- the server answers with an error status, `raise_for_status` raises;
  the destination is not touched. -/
  | badStatus
  /-- the transfer breaks after `written` bytes were stored. -/
  | failDuringWrite (written : Bytes)
  /-- the transfer completes and `payload` is stored. -/
  | complete (payload : Bytes)
deriving DecidableEq

/-- Does the attempt complete without a transport-level error? -/
def attemptSucceeds (o : AttemptOutcome) : Bool :=
  match o with
  | .complete _ => true
  | _ => false

/-- Does the attempt fail before the destination file is opened? -/
def failsBeforeOpen (o : AttemptOutcome) : Bool :=
  match o with
  | .requestFails => true
  | .badStatus => true
  | _ => false

/-- One zip entry: a relative path inside the archive and its contents. -/
abbrev ZipEntry : Type := List String × Bytes

/-- What a byte string means when opened as a zip archive.  `notZip`
raises `BadZipFile` at `zipfile.ZipFile(...)` before anything is
extracted; `archive entries corrupt` extracts `entries` and, when
`corrupt` is true, raises afterwards (a member whose data is damaged is
detected only when `extractall` reaches it, so earlier members are
already on disk). -/
inductive ZipArchive where
  | notZip
  | archive (entries : List ZipEntry) (corrupt : Bool)
deriving DecidableEq

/-- The entries `extractall` manages to write before any failure. -/
def goodEntries (z : ZipArchive) : List ZipEntry :=
  match z with
  | .notZip => []
  | .archive es _ => es

/-- Does opening-and-extracting this archive raise? -/
def zipRaises (z : ZipArchive) : Bool :=
  match z with
  | .notZip => true
  | .archive _ c => c

/-- The oracles describing what the outside world does: the outcome of
fetching each URL, the archive meaning of each downloaded byte string,
and whether `pip install` of each package exits with status 0. -/
structure Env where
  net : String → AttemptOutcome
  zip : Bytes → ZipArchive
  pipOk : String → Bool

/-! ### `download_file_from_url` (data_downloader.py lines 46-69) -/

/-- The body of the `try` in `download_file_from_url`: the request, the
status check, the truncating open and the chunked write, and the success
message.  The ghost `attempts` trace is recorded by the caller. -/
def downloadBody (o : AttemptOutcome) (dest : FPath) (w : World) :
    World × Except Exn Unit :=
  match o with
  | .requestFails => (w, Except.error Exn.requestExn)
  | .badStatus => (w, Except.error Exn.statusExn)
  | .failDuringWrite written => (setFile w dest written, Except.error Exn.writeExn)
  | .complete payload =>
      (logMsg (setFile w dest payload) ("Downloaded: " ++ pathStr dest), Except.ok ())

/-- Append a URL to the ghost trace of attempted downloads. -/
def recordAttempt (w : World) (url : String) : World :=
  { w with attempts := w.attempts ++ [url] }

/-- `download_file_from_url(url, destination)`: run the body, catch every
exception (`except Exception`), and return `True` exactly when the
transfer completed.  The URL is appended to the ghost `attempts` trace to
record that this attempt took place. -/
def download_file_from_url (net : String → AttemptOutcome) (url : String)
    (dest : FPath) (w : World) : World × Bool :=
  match downloadBody (net url) dest (recordAttempt w url) with
  | (w1, Except.ok ()) => (w1, true)
  | (w1, Except.error _) => (logMsg w1 ("Error downloading " ++ url), false)

/-- The retry loop shared by `download_chest_xray_dataset` (lines 85-90)
and `download_covid_dataset` (lines 120-125): print the "Trying ..."
banner, attempt the URL, stop with `True` at the first attempt that
returns `True`, return `False` when the list is exhausted. -/
def tryUrls (net : String → AttemptOutcome) (msg : String) (urls : List String)
    (dest : FPath) (w : World) : World × Bool :=
  match urls with
  | [] => (w, false)
  | u :: rest =>
      match download_file_from_url net u dest (logMsg w msg) with
      | (w1, true) => (w1, true)
      | (w1, false) => tryUrls net msg rest dest w1

/-! ### The extraction block (data_downloader.py lines 92-100 / 127-134) -/

/-- Write a list of zip entries under `target`, in order (later entries
overwrite earlier ones of the same name). -/
def applyEntries (target : FPath) (es : List ZipEntry) (w : World) : World :=
  match es with
  | [] => w
  | e :: rest => applyEntries target rest (setFile w (target ++ e.1) e.2)

/-- The value `extractall` leaves at path `q`: the last entry of `es`
whose target path is `q`, if any. -/
def entryLookup (target : FPath) (es : List ZipEntry) (q : FPath) : Option Bytes :=
  match es with
  | [] => none
  | e :: rest =>
      match entryLookup target rest q with
      | some v => some v
      | none => if target ++ e.1 = q then some e.2 else none

/-- `zipfile.ZipFile(dest).extractall(target)`: raise `BadZipFile` on a
non-archive, otherwise write the entries and raise at the point where a
corrupt member is detected. -/
def extractAll (z : ZipArchive) (target : FPath) (w : World) :
    World × Except Exn Unit :=
  match z with
  | .notZip => (w, Except.error Exn.zipExn)
  | .archive es c =>
      (applyEntries target es w, if c then Except.error Exn.zipExn else Except.ok ())

/-- The whole `try/except` extraction block of the two dataset drivers:
open the downloaded file as a zip, extract into `target`, print the
success message and delete the archive; on any exception print the error
message and continue. -/
def extractAndCleanup (zipOf : Bytes → ZipArchive) (dest target : FPath)
    (okMsg : String) (w : World) : World :=
  match getFile w dest with
  | none => logMsg w "Error extracting"
  | some bytes =>
      match extractAll (zipOf bytes) target w with
      | (w1, Except.ok ()) => removeFileW (logMsg w1 okMsg) dest
      | (w1, Except.error _) => logMsg w1 "Error extracting"

/-! ### `create_directory_structure` (data_downloader.py lines 19-44) -/

/-- The non-empty ancestor chain of a path, shortest first:
`initSegs ["a","b"] = [["a"], ["a","b"]]`.  `Path.mkdir(parents=True)`
creates exactly these directories. -/
def initSegs : FPath → List FPath
  | [] => []
  | c :: rest => [c] :: (initSegs rest).map (fun q => c :: q)

/-- `Path(p).mkdir(parents=True, exist_ok=existOk)`: with `existOk` false
an existing target raises `FileExistsError`; otherwise the whole ancestor
chain is created (directories that already exist are left alone). -/
def mkdirParents (existOk : Bool) (p : FPath) (w : World) :
    World × Except Exn Unit :=
  if p ∈ w.dirs && !existOk then (w, Except.error Exn.fileExistsExn)
  else ((initSegs p).foldl insertDir w, Except.ok ())

/-- The sixteen hard-coded directories of `create_directory_structure`. -/
def directoriesList : List FPath :=
  [["data", "raw", "chest_xray"],
   ["data", "raw", "covid_xray"],
   ["data", "raw", "brain_mri"],
   ["data", "raw", "blood_tests"],
   ["data", "raw", "cough_audio"],
   ["data", "raw", "diabetes"],
   ["data", "raw", "ecg"],
   ["data", "raw", "heart_disease"],
   ["data", "raw", "medical_text"],
   ["data", "raw", "skin_cancer"],
   ["data", "processed", "multi_disease", "train", "NORMAL"],
   ["data", "processed", "multi_disease", "train", "PNEUMONIA"],
   ["data", "processed", "multi_disease", "train", "COVID"],
   ["data", "processed", "multi_disease", "test", "NORMAL"],
   ["data", "processed", "multi_disease", "test", "PNEUMONIA"],
   ["data", "processed", "multi_disease", "test", "COVID"]]

/-- The `for directory in directories` loop: `mkdir` then the success
print; an exception from `mkdir` would propagate (there is no `try`). -/
def createDirsLoop : List FPath → World → World × Except Exn Unit
  | [], w => (w, Except.ok ())
  | d :: rest, w =>
      match mkdirParents true d w with
      | (w1, Except.error e) => (w1, Except.error e)
      | (w1, Except.ok ()) =>
          createDirsLoop rest (logMsg w1 ("Created directory: " ++ pathStr d))

/-- `create_directory_structure()`. -/
def create_directory_structure (w : World) : World × Except Exn Unit :=
  createDirsLoop directoriesList w

/-! ### The three dataset drivers (data_downloader.py lines 71-153) -/

/-- Encode a string as file contents. -/
def strBytes (s : String) : Bytes :=
  s.data.map Char.toNat

/-- The chest X-ray candidate list: the Kaggle page first, then the two
alternative mirrors (lines 76-86). -/
def chestUrls : List String :=
  ["https://www.kaggle.com/datasets/paultimothymooney/chest-xray-pneumonia/download",
   "https://prod-dcd-datasets-cache-zipfiles.s3.eu-west-1.amazonaws.com/rscbjbr9sj-2.zip",
   "https://storage.googleapis.com/kagglesdsdata/datasets/17810/23812/chest_xray.zip"]

def chestDest : FPath := ["data", "raw", "chest_xray", "chest-xray-pneumonia.zip"]

def chestTargetDir : FPath := ["data", "raw", "chest_xray"]

def chestFailMsg : String := "Failed to download chest X-ray dataset from all sources"

/-- The common body of `download_chest_xray_dataset` (lines 71-106) and
`download_covid_dataset` (lines 108-139), which are identical up to their
banner texts, URL lists and paths: print the banner, try the candidates
in order, and on success extract-and-delete while on failure print the
failure report and the manual instructions. -/
def zipDatasetDriver (env : Env) (banner tryMsg : String) (urls : List String)
    (dest target : FPath) (okMsg failMsg : String) (w : World) : World :=
  let w0 := logMsg w banner
  let r := tryUrls env.net tryMsg urls dest w0
  if r.2 then
    extractAndCleanup env.zip dest target okMsg r.1
  else
    logMsg (logMsg r.1 failMsg) "Manual download instructions printed"

/-- `download_chest_xray_dataset()` (lines 71-106). -/
def download_chest_xray_dataset (env : Env) (w : World) : World :=
  zipDatasetDriver env "Downloading Chest X-Ray Pneumonia Dataset..."
    "Trying download source..." chestUrls chestDest chestTargetDir
    "Extracted chest X-ray dataset" chestFailMsg w

def covidUrls : List String :=
  ["https://www.kaggle.com/datasets/tawsifurrahman/covid19-radiography-database/download",
   "https://prod-dcd-datasets-cache-zipfiles.s3.eu-west-1.amazonaws.com/8h65ywd2jr-3.zip"]

def covidDest : FPath := ["data", "raw", "covid_xray", "covid-radiography.zip"]

def covidTargetDir : FPath := ["data", "raw", "covid_xray"]

def covidFailMsg : String := "Failed to download COVID dataset"

/-- `download_covid_dataset()` (lines 108-139). -/
def download_covid_dataset (env : Env) (w : World) : World :=
  zipDatasetDriver env "Downloading COVID-19 Radiography Dataset..."
    "Trying COVID dataset source..." covidUrls covidDest covidTargetDir
    "Extracted COVID-19 dataset" covidFailMsg w

def heartUrl : String :=
  "https://archive.ics.uci.edu/ml/machine-learning-databases/heart-disease/processed.cleveland.data"

def heartDest : FPath := ["data", "raw", "heart_disease", "heart.csv"]

def diabetesUrl : String :=
  "https://raw.githubusercontent.com/jbrownlee/Datasets/master/pima-indians-diabetes.csv"

def diabetesDest : FPath := ["data", "raw", "diabetes", "diabetes.csv"]

/-- `download_sample_datasets()` (lines 141-153): two single-URL
downloads, each followed by a success print. -/
def download_sample_datasets (env : Env) (w : World) : World :=
  let w0 := logMsg w "Downloading Sample Medical Datasets..."
  let r1 := download_file_from_url env.net heartUrl heartDest w0
  let w1 := if r1.2 then logMsg r1.1 "Heart disease dataset downloaded" else r1.1
  let r2 := download_file_from_url env.net diabetesUrl diabetesDest w1
  if r2.2 then logMsg r2.1 "Diabetes dataset downloaded" else r2.1

/-- `create_data_info_file()` (lines 155-244): write one Markdown file
and print.  The Markdown body is a fixed string the claims never inspect,
so it is abbreviated here. -/
def dataInfoText : String :=
  "Healthcare AI Platform - Dataset Information and setup instructions"

def create_data_info_file (w : World) : World :=
  logMsg (setFile w ["DATA_INFO.md"] (strBytes dataInfoText))
    "Created DATA_INFO.md with complete setup instructions"

/-- `main()` of data_downloader.py (lines 246-265): scaffold directories,
run the three dataset drivers, write the info file.  An exception from
`create_directory_structure` would propagate to the caller; nothing else
in the body can raise. -/
def data_downloader_main (env : Env) (w : World) : World × Except Exn Unit :=
  let w0 := logMsg w "Healthcare AI Platform - Data Downloader"
  match create_directory_structure w0 with
  | (w1, Except.error e) => (w1, Except.error e)
  | (w1, Except.ok ()) =>
      let w2 := download_chest_xray_dataset env w1
      let w3 := download_covid_dataset env w2
      let w4 := download_sample_datasets env w3
      let w5 := create_data_info_file w4
      (logMsg w5 "Data download process completed!", Except.ok ())

/-! ### setup_new_device.py -/

/-- The hard-coded package list (lines 26-31). -/
def basic_packages : List String :=
  ["torch", "torchvision", "torchaudio", "numpy", "pandas", "matplotlib",
   "seaborn", "scikit-learn", "opencv-python", "Pillow", "requests",
   "tqdm", "gdown"]

/-- `subprocess.check_call([sys.executable, "-m", "pip", "install", pkg])`:
raises `CalledProcessError` exactly when the install exits non-zero. -/
def checkCallPip (ok : Bool) (w : World) : World × Except Exn Unit :=
  if ok then (w, Except.ok ()) else (w, Except.error Exn.calledProcessExn)

/-- One iteration of the install loop (lines 33-39): the `try` around
`check_call` catches `CalledProcessError` and prints either outcome. -/
def installOne (env : Env) (w : World) (pkg : String) : World :=
  let w0 := logMsg w ("Installing " ++ pkg ++ "...")
  match checkCallPip (env.pipOk pkg) w0 with
  | (w1, Except.ok ()) => logMsg w1 (pkg ++ " installed successfully")
  | (w1, Except.error _) => logMsg w1 ("Failed to install " ++ pkg)

/-- `install_requirements()` (lines 21-41). -/
def install_requirements (env : Env) (w : World) : World :=
  let w0 := logMsg w "Installing required packages..."
  logMsg (basic_packages.foldl (installOne env) w0) "Package installation completed!"

/-- `setup_project()` (lines 43-53): import data_downloader and run its
`main`.  The import succeeds (the module is part of the repository), so
the `except ImportError` branch is dead in the model; any other exception
from `data_downloader.main` would propagate. -/
def setup_project (env : Env) (w : World) : World × Except Exn Unit :=
  let w0 := logMsg w "Setting up project structure..."
  match data_downloader_main env w0 with
  | (w1, Except.ok ()) => (w1, Except.ok ())
  | (w1, Except.error e) => (w1, Except.error e)

/-- `create_quick_start_guide()` (lines 55-107): write one Markdown file
(body abbreviated, as for `DATA_INFO.md`) and print. -/
def quickStartText : String :=
  "Healthcare AI Platform - Quick Start Guide"

def create_quick_start_guide (w : World) : World :=
  logMsg (setFile w ["QUICK_START.md"] (strBytes quickStartText))
    "Created QUICK_START.md"

/-- `main()` of setup_new_device.py (lines 109-126). -/
def setup_new_device_main (env : Env) (w : World) : World × Except Exn Unit :=
  let w0 := logMsg w "Healthcare AI Platform - New Device Setup"
  let w1 := install_requirements env w0
  match setup_project env w1 with
  | (w2, Except.error e) => (w2, Except.error e)
  | (w2, Except.ok ()) =>
      let w3 := create_quick_start_guide w2
      (logMsg w3 "Setup completed successfully!", Except.ok ())

/-! ### The three dataset routines as reorderable units (for the
independence claim) -/

/-- A name for each dataset acquisition routine. -/
inductive Dataset where
  | chest
  | covid
  | samples
deriving DecidableEq

/-- Run one routine. -/
def runDataset (env : Env) (t : Dataset) (w : World) : World :=
  match t with
  | .chest => download_chest_xray_dataset env w
  | .covid => download_covid_dataset env w
  | .samples => download_sample_datasets env w

/-- Run a list of routines left to right. -/
def runDatasets (env : Env) (l : List Dataset) (w : World) : World :=
  match l with
  | [] => w
  | t :: rest => runDatasets env rest (runDataset env t w)

/-- Is `base` an initial segment of `p` (is `p` the directory `base`
itself or a path below it)? -/
def isUnder (base p : FPath) : Bool :=
  match base, p with
  | [], _ => true
  | _ :: _, [] => false
  | b :: bs, c :: cs => decide (b = c) && isUnder bs cs

/-- The disjoint filesystem region each routine owns: everything below
its hard-coded destination directory (directories, for `samples`, of its
two CSV files). -/
def regionOf (t : Dataset) (p : FPath) : Bool :=
  match t with
  | .chest => isUnder chestTargetDir p
  | .covid => isUnder covidTargetDir p
  | .samples =>
      isUnder ["data", "raw", "heart_disease"] p
        || isUnder ["data", "raw", "diabetes"] p

/-! ### Characterizing the downloader -/

/-- What one attempt leaves at the destination, given what was there
before: a failure before the `open` leaves it alone, a mid-write failure
leaves the bytes written so far, a completed transfer leaves the payload
(`open(..., 'wb')` truncates in both of the last two cases). -/
def writeOf (o : AttemptOutcome) (orig : Option Bytes) : Option Bytes :=
  match o with
  | .requestFails => orig
  | .badStatus => orig
  | .failDuringWrite written => some written
  | .complete payload => some payload

/-- What the retry loop leaves at the destination: fold `writeOf` over
the attempts, stopping at the first success. -/
def lastWritten (net : String → AttemptOutcome) : List String → Option Bytes → Option Bytes
  | [], orig => orig
  | u :: rest, orig =>
      if attemptSucceeds (net u) then writeOf (net u) orig
      else lastWritten net rest (writeOf (net u) orig)

@[simp] theorem getFile_recordAttempt (w : World) (u : String) (q : FPath) :
    getFile (recordAttempt w u) q = getFile w q := rfl

@[simp] theorem dirs_recordAttempt (w : World) (u : String) :
    (recordAttempt w u).dirs = w.dirs := rfl

@[simp] theorem console_recordAttempt (w : World) (u : String) :
    (recordAttempt w u).console = w.console := rfl

@[simp] theorem attempts_recordAttempt (w : World) (u : String) :
    (recordAttempt w u).attempts = w.attempts ++ [u] := rfl

theorem dfu_snd (net : String → AttemptOutcome) (url : String) (dest : FPath) (w : World) :
    (download_file_from_url net url dest w).2 = attemptSucceeds (net url) := by
  cases h : net url <;>
    simp [download_file_from_url, downloadBody, attemptSucceeds, h]

theorem dfu_getFile (net : String → AttemptOutcome) (url : String) (dest : FPath)
    (w : World) (q : FPath) :
    getFile (download_file_from_url net url dest w).1 q
      = if q = dest then writeOf (net url) (getFile w dest) else getFile w q := by
  cases h : net url <;>
    by_cases hq : q = dest <;>
      simp [download_file_from_url, downloadBody, writeOf, h, hq]

theorem dfu_dirs (net : String → AttemptOutcome) (url : String) (dest : FPath) (w : World) :
    (download_file_from_url net url dest w).1.dirs = w.dirs := by
  cases h : net url <;> simp [download_file_from_url, downloadBody, h]

theorem dfu_attempts (net : String → AttemptOutcome) (url : String) (dest : FPath) (w : World) :
    (download_file_from_url net url dest w).1.attempts = w.attempts ++ [url] := by
  cases h : net url <;> simp [download_file_from_url, downloadBody, h]

theorem dfu_console_ext (net : String → AttemptOutcome) (url : String) (dest : FPath)
    (w : World) : ∃ t, (download_file_from_url net url dest w).1.console = w.console ++ t := by
  cases h : net url <;>
    simp [download_file_from_url, downloadBody, h]

theorem tryUrls_snd (net : String → AttemptOutcome) (msg : String) (urls : List String)
    (dest : FPath) (w : World) :
    (tryUrls net msg urls dest w).2 = urls.any (fun u => attemptSucceeds (net u)) := by
  induction urls generalizing w with
  | nil => rfl
  | cons u rest ih =>
    have h2 := dfu_snd net u dest (logMsg w msg)
    rw [tryUrls]
    cases hr : download_file_from_url net u dest (logMsg w msg) with
    | mk w1 b =>
      rw [hr] at h2
      simp only at h2
      cases b with
      | true => simp [← h2]
      | false => simp [← h2, ih w1]

theorem tryUrls_getFile (net : String → AttemptOutcome) (msg : String) (urls : List String)
    (dest : FPath) (w : World) (q : FPath) :
    getFile (tryUrls net msg urls dest w).1 q
      = if q = dest then lastWritten net urls (getFile w dest) else getFile w q := by
  induction urls generalizing w with
  | nil => by_cases hq : q = dest <;> simp [tryUrls, lastWritten, hq]
  | cons u rest ih =>
    have hb := dfu_snd net u dest (logMsg w msg)
    have hg := fun q2 => dfu_getFile net u dest (logMsg w msg) q2
    rw [tryUrls]
    cases hr : download_file_from_url net u dest (logMsg w msg) with
    | mk w1 b =>
      rw [hr] at hb hg
      simp only [getFile_logMsg] at hb hg
      cases b with
      | true =>
        simp only [lastWritten, ← hb, if_true]
        by_cases hq : q = dest <;> simp [hq, hg q, hg dest]
      | false =>
        simp only [lastWritten, ← hb, if_false]
        rw [ih w1]
        by_cases hq : q = dest <;> simp [hq, hg q, hg dest]

theorem tryUrls_dirs (net : String → AttemptOutcome) (msg : String) (urls : List String)
    (dest : FPath) (w : World) :
    (tryUrls net msg urls dest w).1.dirs = w.dirs := by
  induction urls generalizing w with
  | nil => rfl
  | cons u rest ih =>
    have hd := dfu_dirs net u dest (logMsg w msg)
    rw [tryUrls]
    cases hr : download_file_from_url net u dest (logMsg w msg) with
    | mk w1 b =>
      rw [hr] at hd
      simp only [dirs_logMsg] at hd
      cases b with
      | true => exact hd
      | false => rw [ih w1, hd]

theorem tryUrls_attempts (net : String → AttemptOutcome) (msg : String) (urls : List String)
    (dest : FPath) (w : World) :
    (tryUrls net msg urls dest w).1.attempts
      = w.attempts ++ (urls.takeWhile (fun u => !attemptSucceeds (net u))
          ++ (urls.find? (fun u => attemptSucceeds (net u))).toList) := by
  induction urls generalizing w with
  | nil => simp [tryUrls]
  | cons u rest ih =>
    have hb := dfu_snd net u dest (logMsg w msg)
    have ha := dfu_attempts net u dest (logMsg w msg)
    rw [tryUrls]
    cases hr : download_file_from_url net u dest (logMsg w msg) with
    | mk w1 b =>
      rw [hr] at hb ha
      simp only [attempts_logMsg] at hb ha
      cases b with
      | true =>
        simp [List.takeWhile_cons, List.find?_cons, ← hb, ha]
      | false =>
        rw [ih w1, ha]
        simp [List.takeWhile_cons, List.find?_cons, ← hb]

theorem tryUrls_console_ext (net : String → AttemptOutcome) (msg : String)
    (urls : List String) (dest : FPath) (w : World) :
    ∃ t, (tryUrls net msg urls dest w).1.console = w.console ++ t := by
  induction urls generalizing w with
  | nil => exact ⟨[], by simp [tryUrls]⟩
  | cons u rest ih =>
    obtain ⟨t1, ht1⟩ := dfu_console_ext net u dest (logMsg w msg)
    rw [tryUrls]
    cases hr : download_file_from_url net u dest (logMsg w msg) with
    | mk w1 b =>
      rw [hr] at ht1
      simp only [console_logMsg] at ht1
      cases b with
      | true => exact ⟨[msg] ++ t1, by simpa using ht1⟩
      | false =>
        obtain ⟨t2, ht2⟩ := ih w1
        exact ⟨[msg] ++ t1 ++ t2, by simp [ht2, ht1]⟩

/-! ### Characterizing the extraction block -/

/-- First-defined option, used to state what `extractall` leaves at a
path: the entry written there, or the previous contents. -/
def fileOr (a b : Option Bytes) : Option Bytes :=
  match a with
  | some v => some v
  | none => b

theorem applyEntries_getFile (target : FPath) (es : List ZipEntry) (w : World) (q : FPath) :
    getFile (applyEntries target es w) q
      = fileOr (entryLookup target es q) (getFile w q) := by
  induction es generalizing w with
  | nil => simp [applyEntries, entryLookup, fileOr]
  | cons e rest ih =>
    rw [applyEntries, ih, entryLookup]
    cases hl : entryLookup target rest q with
    | some v => simp [fileOr]
    | none =>
      by_cases hq : target ++ e.1 = q
      · simp [fileOr, hq.symm]
      · have hq2 : ¬(q = target ++ e.1) := fun h2 => hq h2.symm
        simp [fileOr, hq, hq2]

@[simp] theorem dirs_applyEntries (target : FPath) (es : List ZipEntry) (w : World) :
    (applyEntries target es w).dirs = w.dirs := by
  induction es generalizing w with
  | nil => rfl
  | cons e rest ih => rw [applyEntries, ih]; rfl

@[simp] theorem console_applyEntries (target : FPath) (es : List ZipEntry) (w : World) :
    (applyEntries target es w).console = w.console := by
  induction es generalizing w with
  | nil => rfl
  | cons e rest ih => rw [applyEntries, ih]; rfl

@[simp] theorem attempts_applyEntries (target : FPath) (es : List ZipEntry) (w : World) :
    (applyEntries target es w).attempts = w.attempts := by
  induction es generalizing w with
  | nil => rfl
  | cons e rest ih => rw [applyEntries, ih]; rfl

theorem isUnder_append (base rest : FPath) : isUnder base (base ++ rest) = true := by
  induction base with
  | nil => rfl
  | cons b bs ih => simp [isUnder, ih]

theorem entryLookup_none_of_not_under (target : FPath) (es : List ZipEntry) (q : FPath)
    (h : isUnder target q = false) : entryLookup target es q = none := by
  induction es with
  | nil => rfl
  | cons e rest ih =>
    rw [entryLookup, ih]
    have h2 : ¬(target ++ e.1 = q) := by
      intro h3
      rw [← h3, isUnder_append] at h
      simp at h
    simp [h2]

theorem entryLookup_none_of_not_mem (target : FPath) (es : List ZipEntry) (name : List String)
    (h : ∀ e ∈ es, e.1 ≠ name) : entryLookup target es (target ++ name) = none := by
  induction es with
  | nil => rfl
  | cons e rest ih =>
    rw [entryLookup, ih (fun x hx => h x (List.mem_cons_of_mem e hx))]
    have h2 : ¬(target ++ e.1 = target ++ name) := by
      intro h3
      exact h e (List.mem_cons_self e rest) (List.append_cancel_left h3)
    simp [h2]

theorem entryLookup_of_mem_nodup (target : FPath) (es : List ZipEntry) (e : ZipEntry)
    (he : e ∈ es) (hnd : (es.map (fun x => x.1)).Nodup) :
    entryLookup target es (target ++ e.1) = some e.2 := by
  induction es with
  | nil => exact absurd he (List.not_mem_nil e)
  | cons e0 rest ih =>
    rw [List.map_cons, List.nodup_cons] at hnd
    rcases List.mem_cons.mp he with he0 | hrest
    · subst he0
      have hnone : entryLookup target rest (target ++ e.1) = none := by
        apply entryLookup_none_of_not_mem
        intro x hx h2
        exact hnd.1 (h2 ▸ List.mem_map_of_mem (fun y => y.1) hx)
      rw [entryLookup, hnone]
      simp
    · rw [entryLookup, ih hrest hnd.2]

theorem extractAndCleanup_getFile (zipOf : Bytes → ZipArchive) (dest target : FPath)
    (okMsg : String) (w : World) (bytes : Bytes) (hb : getFile w dest = some bytes)
    (q : FPath) :
    getFile (extractAndCleanup zipOf dest target okMsg w) q
      = if zipRaises (zipOf bytes) then
          fileOr (entryLookup target (goodEntries (zipOf bytes)) q) (getFile w q)
        else if q = dest then none
        else fileOr (entryLookup target (goodEntries (zipOf bytes)) q) (getFile w q) := by
  rw [extractAndCleanup, hb]
  cases hz : zipOf bytes with
  | notZip =>
    simp [extractAll, zipRaises, goodEntries, entryLookup, fileOr, hz]
  | archive es c =>
    cases c with
    | true =>
      simp [extractAll, zipRaises, goodEntries, applyEntries_getFile, hz]
    | false =>
      by_cases hq : q = dest <;>
        simp [extractAll, zipRaises, goodEntries, applyEntries_getFile, hq, hz]

theorem extractAndCleanup_frame (zipOf : Bytes → ZipArchive) (dest target : FPath)
    (okMsg : String) (w : World) (q : FPath) (hq : q ≠ dest)
    (ht : isUnder target q = false) :
    getFile (extractAndCleanup zipOf dest target okMsg w) q = getFile w q := by
  rw [extractAndCleanup]
  cases hb : getFile w dest with
  | none => simp
  | some bytes =>
    cases hz : zipOf bytes with
    | notZip => simp [extractAll, hz]
    | archive es c =>
      have hl := entryLookup_none_of_not_under target es q ht
      cases c with
      | true => simp [extractAll, applyEntries_getFile, hl, fileOr, hz]
      | false => simp [extractAll, applyEntries_getFile, hl, fileOr, hq, hz]

@[simp] theorem dirs_extractAndCleanup (zipOf : Bytes → ZipArchive) (dest target : FPath)
    (okMsg : String) (w : World) :
    (extractAndCleanup zipOf dest target okMsg w).dirs = w.dirs := by
  rw [extractAndCleanup]
  cases hb : getFile w dest with
  | none => simp
  | some bytes =>
    cases hz : zipOf bytes with
    | notZip => simp [extractAll, hz]
    | archive es c => cases c <;> simp [extractAll, hz]

@[simp] theorem attempts_extractAndCleanup (zipOf : Bytes → ZipArchive) (dest target : FPath)
    (okMsg : String) (w : World) :
    (extractAndCleanup zipOf dest target okMsg w).attempts = w.attempts := by
  rw [extractAndCleanup]
  cases hb : getFile w dest with
  | none => simp
  | some bytes =>
    cases hz : zipOf bytes with
    | notZip => simp [extractAll, hz]
    | archive es c => cases c <;> simp [extractAll, hz]

/-! ### Characterizing the directory scaffolder -/

theorem mkdirParents_true_eq (p : FPath) (w : World) :
    mkdirParents true p w = ((initSegs p).foldl insertDir w, Except.ok ()) := by
  simp [mkdirParents]

theorem files_foldl_insertDir (L : List FPath) (w : World) :
    (L.foldl insertDir w).files = w.files := by
  induction L generalizing w with
  | nil => rfl
  | cons d rest ih => rw [List.foldl_cons, ih, files_insertDir]

theorem console_foldl_insertDir (L : List FPath) (w : World) :
    (L.foldl insertDir w).console = w.console := by
  induction L generalizing w with
  | nil => rfl
  | cons d rest ih => rw [List.foldl_cons, ih, console_insertDir]

theorem attempts_foldl_insertDir (L : List FPath) (w : World) :
    (L.foldl insertDir w).attempts = w.attempts := by
  induction L generalizing w with
  | nil => rfl
  | cons d rest ih => rw [List.foldl_cons, ih, attempts_insertDir]

theorem mem_dirs_foldl_insertDir_of_mem (L : List FPath) (w : World) (q : FPath)
    (h : q ∈ w.dirs) : q ∈ (L.foldl insertDir w).dirs := by
  induction L generalizing w with
  | nil => exact h
  | cons d rest ih =>
    rw [List.foldl_cons]
    exact ih (insertDir w d) (mem_dirs_insertDir_of_mem w d q h)

theorem mem_dirs_foldl_insertDir_self (L : List FPath) (w : World) (d : FPath)
    (h : d ∈ L) : d ∈ (L.foldl insertDir w).dirs := by
  induction L generalizing w with
  | nil => exact absurd h (List.not_mem_nil d)
  | cons d0 rest ih =>
    rw [List.foldl_cons]
    rcases List.mem_cons.mp h with h0 | h1
    · subst h0
      exact mem_dirs_foldl_insertDir_of_mem rest (insertDir w d) d
        (mem_dirs_insertDir_self w d)
    · exact ih (insertDir w d0) h1

theorem foldl_insertDir_eq_of_all_mem (L : List FPath) (w : World)
    (h : ∀ d ∈ L, d ∈ w.dirs) : L.foldl insertDir w = w := by
  induction L generalizing w with
  | nil => rfl
  | cons d rest ih =>
    rw [List.foldl_cons, insertDir_eq_of_mem w d (h d (List.mem_cons_self d rest))]
    exact ih w (fun x hx => h x (List.mem_cons_of_mem d hx))

theorem createDirsLoop_snd (L : List FPath) (w : World) :
    (createDirsLoop L w).2 = Except.ok () := by
  induction L generalizing w with
  | nil => rfl
  | cons d rest ih =>
    rw [createDirsLoop, mkdirParents_true_eq]
    exact ih (logMsg ((initSegs d).foldl insertDir w) ("Created directory: " ++ pathStr d))

theorem files_createDirsLoop (L : List FPath) (w : World) :
    (createDirsLoop L w).1.files = w.files := by
  induction L generalizing w with
  | nil => rfl
  | cons d rest ih =>
    rw [createDirsLoop, mkdirParents_true_eq]
    rw [ih (logMsg ((initSegs d).foldl insertDir w) ("Created directory: " ++ pathStr d))]
    rw [files_logMsg, files_foldl_insertDir]

theorem mem_dirs_createDirsLoop_of_mem (L : List FPath) (w : World) (q : FPath)
    (h : q ∈ w.dirs) : q ∈ (createDirsLoop L w).1.dirs := by
  induction L generalizing w with
  | nil => exact h
  | cons d rest ih =>
    rw [createDirsLoop, mkdirParents_true_eq]
    apply ih
    rw [dirs_logMsg]
    exact mem_dirs_foldl_insertDir_of_mem (initSegs d) w q h

theorem mem_dirs_createDirsLoop_self (L : List FPath) (w : World) (d s : FPath)
    (hd : d ∈ L) (hs : s ∈ initSegs d) : s ∈ (createDirsLoop L w).1.dirs := by
  induction L generalizing w with
  | nil => exact absurd hd (List.not_mem_nil d)
  | cons d0 rest ih =>
    rw [createDirsLoop, mkdirParents_true_eq]
    rcases List.mem_cons.mp hd with h0 | h1
    · subst h0
      apply mem_dirs_createDirsLoop_of_mem
      rw [dirs_logMsg]
      exact mem_dirs_foldl_insertDir_self (initSegs d) w s hs
    · exact ih (logMsg ((initSegs d0).foldl insertDir w)
        ("Created directory: " ++ pathStr d0)) h1

theorem dirs_createDirsLoop_of_all_mem (L : List FPath) (w : World)
    (h : ∀ d ∈ L, ∀ s ∈ initSegs d, s ∈ w.dirs) :
    (createDirsLoop L w).1.dirs = w.dirs := by
  induction L generalizing w with
  | nil => rfl
  | cons d rest ih =>
    rw [createDirsLoop, mkdirParents_true_eq]
    have he : (initSegs d).foldl insertDir w = w :=
      foldl_insertDir_eq_of_all_mem (initSegs d) w
        (fun s hs => h d (List.mem_cons_self d rest) s hs)
    rw [he]
    have h2 : ∀ d2 ∈ rest, ∀ s ∈ initSegs d2,
        s ∈ (logMsg w ("Created directory: " ++ pathStr d)).dirs := by
      intro d2 hd2 s hs
      rw [dirs_logMsg]
      exact h d2 (List.mem_cons_of_mem d hd2) s hs
    rw [ih (logMsg w ("Created directory: " ++ pathStr d)) h2, dirs_logMsg]

/-! ### Totality of the entry points -/

theorem create_directory_structure_snd (w : World) :
    (create_directory_structure w).2 = Except.ok () :=
  createDirsLoop_snd directoriesList w

theorem data_downloader_main_ok (env : Env) (w : World) :
    ∃ w1, data_downloader_main env w = (w1, Except.ok ()) := by
  rw [data_downloader_main]
  have h := create_directory_structure_snd
    (logMsg w "Healthcare AI Platform - Data Downloader")
  cases hc : create_directory_structure
      (logMsg w "Healthcare AI Platform - Data Downloader") with
  | mk w1 r =>
    rw [hc] at h
    simp only at h
    subst h
    exact ⟨_, rfl⟩

theorem setup_project_ok (env : Env) (w : World) :
    ∃ w1, setup_project env w = (w1, Except.ok ()) := by
  rw [setup_project]
  obtain ⟨w1, h1⟩ := data_downloader_main_ok env
    (logMsg w "Setting up project structure...")
  rw [h1]
  exact ⟨w1, rfl⟩

theorem setup_new_device_main_ok (env : Env) (w : World) :
    ∃ w2, setup_new_device_main env w = (w2, Except.ok ()) := by
  rw [setup_new_device_main]
  obtain ⟨w1, h1⟩ := setup_project_ok env
    (install_requirements env (logMsg w "Healthcare AI Platform - New Device Setup"))
  rw [h1]
  exact ⟨_, rfl⟩

/-! ### The regions the dataset routines write in -/

theorem isUnder_eq_true_iff (base p : FPath) :
    isUnder base p = true ↔ p.take base.length = base := by
  induction base generalizing p with
  | nil => simp [isUnder]
  | cons b bs ih =>
    cases p with
    | nil => simp [isUnder]
    | cons c cs =>
      simp only [isUnder, Bool.and_eq_true, decide_eq_true_eq, List.length_cons,
        List.take_succ_cons, List.cons.injEq, ih]
      constructor
      · rintro ⟨h1, h2⟩; exact ⟨h1.symm, h2⟩
      · rintro ⟨h1, h2⟩; exact ⟨h1.symm, h2⟩

theorem isUnder_disjoint (b1 b2 : FPath) (hl : b1.length = b2.length) (hne : b1 ≠ b2)
    (p : FPath) (h1 : isUnder b1 p = true) : isUnder b2 p = false := by
  cases h2 : isUnder b2 p with
  | false => rfl
  | true =>
    rw [isUnder_eq_true_iff] at h1 h2
    rw [hl] at h1
    exact absurd (h1.symm.trans h2) hne

theorem regionOf_disjoint (t1 t2 : Dataset) (hne : t1 ≠ t2) (q : FPath)
    (h : regionOf t1 q = true) : regionOf t2 q = false := by
  cases t1 with
  | chest =>
    simp only [regionOf] at h
    cases t2 with
    | chest => exact absurd rfl hne
    | covid => exact isUnder_disjoint chestTargetDir covidTargetDir (by decide) (by decide) q h
    | samples =>
      simp only [regionOf]
      rw [isUnder_disjoint chestTargetDir ["data", "raw", "heart_disease"] (by decide) (by decide) q h,
        isUnder_disjoint chestTargetDir ["data", "raw", "diabetes"] (by decide) (by decide) q h]
      rfl
  | covid =>
    simp only [regionOf] at h
    cases t2 with
    | covid => exact absurd rfl hne
    | chest => exact isUnder_disjoint covidTargetDir chestTargetDir (by decide) (by decide) q h
    | samples =>
      simp only [regionOf]
      rw [isUnder_disjoint covidTargetDir ["data", "raw", "heart_disease"] (by decide) (by decide) q h,
        isUnder_disjoint covidTargetDir ["data", "raw", "diabetes"] (by decide) (by decide) q h]
      rfl
  | samples =>
    simp only [regionOf, Bool.or_eq_true] at h
    cases t2 with
    | samples => exact absurd rfl hne
    | chest =>
      simp only [regionOf]
      rcases h with h1 | h1
      · exact isUnder_disjoint ["data", "raw", "heart_disease"] chestTargetDir (by decide) (by decide) q h1
      · exact isUnder_disjoint ["data", "raw", "diabetes"] chestTargetDir (by decide) (by decide) q h1
    | covid =>
      simp only [regionOf]
      rcases h with h1 | h1
      · exact isUnder_disjoint ["data", "raw", "heart_disease"] covidTargetDir (by decide) (by decide) q h1
      · exact isUnder_disjoint ["data", "raw", "diabetes"] covidTargetDir (by decide) (by decide) q h1

/-! ### What each dataset routine does to the filesystem -/

theorem lastWritten_const_of_any (net : String → AttemptOutcome) (urls : List String)
    (o o2 : Option Bytes) (h : urls.any (fun u => attemptSucceeds (net u)) = true) :
    lastWritten net urls o = lastWritten net urls o2 := by
  induction urls generalizing o o2 with
  | nil => simp at h
  | cons u rest ih =>
    rw [lastWritten, lastWritten]
    by_cases hu : attemptSucceeds (net u) = true
    · rw [if_pos hu, if_pos hu]
      cases ho : net u with
      | requestFails => rw [ho] at hu; simp [attemptSucceeds] at hu
      | badStatus => rw [ho] at hu; simp [attemptSucceeds] at hu
      | failDuringWrite written => rw [ho] at hu; simp [attemptSucceeds] at hu
      | complete payload => rfl
    · rw [if_neg hu, if_neg hu]
      rw [List.any_cons] at h
      simp only [Bool.or_eq_true] at h
      rcases h with h1 | h1
      · exact absurd h1 hu
      · exact ih (writeOf (net u) o) (writeOf (net u) o2) h1

theorem lastWritten_isSome_of_any (net : String → AttemptOutcome) (urls : List String)
    (o : Option Bytes) (h : urls.any (fun u => attemptSucceeds (net u)) = true) :
    (lastWritten net urls o).isSome = true := by
  induction urls generalizing o with
  | nil => simp at h
  | cons u rest ih =>
    rw [lastWritten]
    by_cases hu : attemptSucceeds (net u) = true
    · rw [if_pos hu]
      cases ho : net u with
      | requestFails => rw [ho] at hu; simp [attemptSucceeds] at hu
      | badStatus => rw [ho] at hu; simp [attemptSucceeds] at hu
      | failDuringWrite written => rw [ho] at hu; simp [attemptSucceeds] at hu
      | complete payload => rfl
    · rw [if_neg hu]
      rw [List.any_cons] at h
      simp only [Bool.or_eq_true] at h
      rcases h with h1 | h1
      · exact absurd h1 hu
      · exact ih (writeOf (net u) o) h1

theorem getFile_logIf (b : Bool) (w : World) (s : String) (q : FPath) :
    getFile (if b then logMsg w s else w) q = getFile w q := by
  cases b <;> simp

theorem zipDriver_frame (env : Env) (banner tryMsg : String) (urls : List String)
    (dest target : FPath) (okMsg failMsg : String) (w : World) (q : FPath)
    (hqd : q ≠ dest) (ht : isUnder target q = false) :
    getFile (zipDatasetDriver env banner tryMsg urls dest target okMsg failMsg w) q
      = getFile w q := by
  simp only [zipDatasetDriver]
  by_cases hs : (tryUrls env.net tryMsg urls dest (logMsg w banner)).2 = true
  · rw [if_pos hs, extractAndCleanup_frame env.zip dest target okMsg _ q hqd ht,
      tryUrls_getFile, if_neg hqd, getFile_logMsg]
  · rw [if_neg hs, getFile_logMsg, getFile_logMsg,
      tryUrls_getFile, if_neg hqd, getFile_logMsg]

theorem zipDriver_local (env : Env) (banner tryMsg : String) (urls : List String)
    (dest target : FPath) (okMsg failMsg : String) (w w2 : World)
    (hdest : isUnder target dest = true)
    (hag : ∀ q2, isUnder target q2 = true → getFile w q2 = getFile w2 q2)
    (q : FPath) (hq : isUnder target q = true) :
    getFile (zipDatasetDriver env banner tryMsg urls dest target okMsg failMsg w) q
      = getFile (zipDatasetDriver env banner tryMsg urls dest target okMsg failMsg w2) q := by
  simp only [zipDatasetDriver]
  have hsnd : (tryUrls env.net tryMsg urls dest (logMsg w banner)).2
      = (tryUrls env.net tryMsg urls dest (logMsg w2 banner)).2 := by
    rw [tryUrls_snd, tryUrls_snd]
  have hAfter : ∀ q2, isUnder target q2 = true →
      getFile (tryUrls env.net tryMsg urls dest (logMsg w banner)).1 q2
        = getFile (tryUrls env.net tryMsg urls dest (logMsg w2 banner)).1 q2 := by
    intro q2 hq2
    rw [tryUrls_getFile, tryUrls_getFile]
    simp only [getFile_logMsg]
    by_cases h2 : q2 = dest
    · rw [if_pos h2, if_pos h2, hag dest hdest]
    · rw [if_neg h2, if_neg h2]; exact hag q2 hq2
  by_cases hs : (tryUrls env.net tryMsg urls dest (logMsg w banner)).2 = true
  · rw [if_pos hs, if_pos (hsnd ▸ hs)]
    have hany : urls.any (fun u => attemptSucceeds (env.net u)) = true := by
      rw [← tryUrls_snd env.net tryMsg urls dest (logMsg w banner)]; exact hs
    have hsome : (getFile (tryUrls env.net tryMsg urls dest (logMsg w banner)).1 dest).isSome
        = true := by
      rw [tryUrls_getFile, if_pos rfl, getFile_logMsg]
      exact lastWritten_isSome_of_any env.net urls _ hany
    obtain ⟨bytes, hb1⟩ := Option.isSome_iff_exists.mp hsome
    have hb2 : getFile (tryUrls env.net tryMsg urls dest (logMsg w2 banner)).1 dest
        = some bytes := by
      rw [← hAfter dest hdest]; exact hb1
    rw [extractAndCleanup_getFile env.zip dest target okMsg _ bytes hb1 q,
      extractAndCleanup_getFile env.zip dest target okMsg _ bytes hb2 q]
    by_cases hz : zipRaises (env.zip bytes) = true
    · rw [if_pos hz, if_pos hz]
      cases hl : entryLookup target (goodEntries (env.zip bytes)) q with
      | some v => simp [fileOr]
      | none => simp [fileOr, hAfter q hq]
    · rw [if_neg hz, if_neg hz]
      by_cases h2 : q = dest
      · rw [if_pos h2, if_pos h2]
      · rw [if_neg h2, if_neg h2]
        cases hl : entryLookup target (goodEntries (env.zip bytes)) q with
        | some v => simp [fileOr]
        | none => simp [fileOr, hAfter q hq]
  · rw [if_neg hs, if_neg (hsnd ▸ hs)]
    simp only [getFile_logMsg]
    exact hAfter q hq

@[simp] theorem dirs_zipDriver (env : Env) (banner tryMsg : String) (urls : List String)
    (dest target : FPath) (okMsg failMsg : String) (w : World) :
    (zipDatasetDriver env banner tryMsg urls dest target okMsg failMsg w).dirs = w.dirs := by
  simp only [zipDatasetDriver]
  by_cases hs : (tryUrls env.net tryMsg urls dest (logMsg w banner)).2 = true <;>
    simp [hs, tryUrls_dirs]

theorem zipDriver_failMsg (env : Env) (banner tryMsg : String) (urls : List String)
    (dest target : FPath) (okMsg failMsg : String) (w : World)
    (hfail : urls.any (fun u => attemptSucceeds (env.net u)) = false) :
    failMsg ∈ (zipDatasetDriver env banner tryMsg urls dest target okMsg failMsg w).console := by
  simp only [zipDatasetDriver]
  have hs : (tryUrls env.net tryMsg urls dest (logMsg w banner)).2 = false := by
    rw [tryUrls_snd]; exact hfail
  simp [hs]

theorem samples_getFile (env : Env) (w : World) (q : FPath) :
    getFile (download_sample_datasets env w) q
      = if q = diabetesDest then writeOf (env.net diabetesUrl) (getFile w diabetesDest)
        else if q = heartDest then writeOf (env.net heartUrl) (getFile w heartDest)
        else getFile w q := by
  have hne : ¬(diabetesDest = heartDest) := by decide
  simp only [download_sample_datasets, getFile_logIf, dfu_getFile, getFile_logMsg, hne,
    if_false]

theorem samples_frame (env : Env) (w : World) (q : FPath)
    (h : regionOf Dataset.samples q = false) :
    getFile (download_sample_datasets env w) q = getFile w q := by
  simp only [regionOf, Bool.or_eq_false_iff] at h
  have h1 : q ≠ diabetesDest := by
    intro he; subst he
    rw [show isUnder ["data", "raw", "diabetes"] diabetesDest = true from by decide] at h
    simp at h
  have h2 : q ≠ heartDest := by
    intro he; subst he
    rw [show isUnder ["data", "raw", "heart_disease"] heartDest = true from by decide] at h
    simp at h
  rw [samples_getFile, if_neg h1, if_neg h2]

theorem samples_local (env : Env) (w w2 : World)
    (hag : ∀ q2, regionOf Dataset.samples q2 = true → getFile w q2 = getFile w2 q2)
    (q : FPath) (hq : regionOf Dataset.samples q = true) :
    getFile (download_sample_datasets env w) q
      = getFile (download_sample_datasets env w2) q := by
  rw [samples_getFile, samples_getFile]
  by_cases h1 : q = diabetesDest
  · rw [if_pos h1, if_pos h1, hag diabetesDest (by decide)]
  · rw [if_neg h1, if_neg h1]
    by_cases h2 : q = heartDest
    · rw [if_pos h2, if_pos h2, hag heartDest (by decide)]
    · rw [if_neg h2, if_neg h2]
      exact hag q hq

theorem dirs_logIf (b : Bool) (w : World) (s : String) :
    (if b then logMsg w s else w).dirs = w.dirs := by
  cases b <;> simp

@[simp] theorem dirs_samples (env : Env) (w : World) :
    (download_sample_datasets env w).dirs = w.dirs := by
  simp only [download_sample_datasets, dirs_logIf, dfu_dirs, dirs_logMsg]

theorem runDataset_frame (env : Env) (t : Dataset) (w : World) (q : FPath)
    (h : regionOf t q = false) : getFile (runDataset env t w) q = getFile w q := by
  cases t with
  | chest =>
    simp only [regionOf] at h
    have hqd : q ≠ chestDest := by
      intro he; subst he
      rw [show isUnder chestTargetDir chestDest = true from by decide] at h
      simp at h
    exact zipDriver_frame env _ _ chestUrls chestDest chestTargetDir _ chestFailMsg w q hqd h
  | covid =>
    simp only [regionOf] at h
    have hqd : q ≠ covidDest := by
      intro he; subst he
      rw [show isUnder covidTargetDir covidDest = true from by decide] at h
      simp at h
    exact zipDriver_frame env _ _ covidUrls covidDest covidTargetDir _ covidFailMsg w q hqd h
  | samples => exact samples_frame env w q h

theorem runDataset_local (env : Env) (t : Dataset) (w w2 : World)
    (hag : ∀ q2, regionOf t q2 = true → getFile w q2 = getFile w2 q2)
    (q : FPath) (hq : regionOf t q = true) :
    getFile (runDataset env t w) q = getFile (runDataset env t w2) q := by
  cases t with
  | chest =>
    exact zipDriver_local env _ _ chestUrls chestDest chestTargetDir _ chestFailMsg w w2
      (by decide) hag q hq
  | covid =>
    exact zipDriver_local env _ _ covidUrls covidDest covidTargetDir _ covidFailMsg w w2
      (by decide) hag q hq
  | samples => exact samples_local env w w2 hag q hq

@[simp] theorem dirs_runDataset (env : Env) (t : Dataset) (w : World) :
    (runDataset env t w).dirs = w.dirs := by
  cases t <;> simp [runDataset, download_chest_xray_dataset, download_covid_dataset]

theorem runDatasets_frame (env : Env) (l : List Dataset) (w : World) (q : FPath)
    (h : ∀ t ∈ l, regionOf t q = false) :
    getFile (runDatasets env l w) q = getFile w q := by
  induction l generalizing w with
  | nil => rfl
  | cons t rest ih =>
    rw [runDatasets, ih (runDataset env t w) (fun t2 ht2 => h t2 (List.mem_cons_of_mem t ht2)),
      runDataset_frame env t w q (h t (List.mem_cons_self t rest))]

theorem runDatasets_region (env : Env) (l : List Dataset) (hnd : l.Nodup) (w : World)
    (t : Dataset) (ht : t ∈ l) (q : FPath) (hq : regionOf t q = true) :
    getFile (runDatasets env l w) q = getFile (runDataset env t w) q := by
  induction l generalizing w with
  | nil => exact absurd ht (List.not_mem_nil t)
  | cons t0 rest ih =>
    rw [List.nodup_cons] at hnd
    rw [runDatasets]
    rcases List.mem_cons.mp ht with h0 | h1
    · subst h0
      apply runDatasets_frame
      intro t2 ht2
      have hne : t ≠ t2 := fun he => hnd.1 (he ▸ ht2)
      exact regionOf_disjoint t t2 hne q hq
    · have hne : t ≠ t0 := fun he => hnd.1 (he ▸ h1)
      rw [ih hnd.2 (runDataset env t0 w) h1]
      apply runDataset_local
      · intro q2 hq2
        exact runDataset_frame env t0 w q2 (regionOf_disjoint t t0 hne q2 hq2)
      · exact hq

theorem dirs_runDatasets (env : Env) (l : List Dataset) (w : World) :
    (runDatasets env l w).dirs = w.dirs := by
  induction l generalizing w with
  | nil => rfl
  | cons t rest ih => rw [runDatasets, ih, dirs_runDataset]

/-! ### Remaining support lemmas -/

theorem not_succeeds_of_failsBeforeOpen (o : AttemptOutcome)
    (h : failsBeforeOpen o = true) : attemptSucceeds o = false := by
  cases o <;> simp [failsBeforeOpen, attemptSucceeds] at h ⊢

theorem lastWritten_keep (net : String → AttemptOutcome) (urls : List String)
    (o : Option Bytes) (h : ∀ u ∈ urls, failsBeforeOpen (net u) = true) :
    lastWritten net urls o = o := by
  induction urls with
  | nil => rfl
  | cons u rest ih =>
    have hu := h u (List.mem_cons_self u rest)
    have htl : ∀ x ∈ rest, failsBeforeOpen (net x) = true :=
      fun x hx => h x (List.mem_cons_of_mem u hx)
    rw [lastWritten]
    cases ho : net u with
    | requestFails =>
      simp only [attemptSucceeds, writeOf]
      rw [if_neg (by simp)]
      exact ih htl
    | badStatus =>
      simp only [attemptSucceeds, writeOf]
      rw [if_neg (by simp)]
      exact ih htl
    | failDuringWrite written => rw [ho] at hu; simp [failsBeforeOpen] at hu
    | complete payload => rw [ho] at hu; simp [failsBeforeOpen] at hu

theorem lastWritten_first_success (net : String → AttemptOutcome) (pre : List String)
    (u : String) (post : List String) (payload : Bytes) (o : Option Bytes)
    (hpre : ∀ x ∈ pre, attemptSucceeds (net x) = false)
    (hu : net u = AttemptOutcome.complete payload) :
    lastWritten net (pre ++ u :: post) o = some payload := by
  induction pre generalizing o with
  | nil =>
    rw [List.nil_append, lastWritten, hu]
    simp [attemptSucceeds, writeOf]
  | cons x xs ih =>
    have hx := hpre x (List.mem_cons_self x xs)
    rw [List.cons_append, lastWritten]
    rw [if_neg (by rw [hx]; simp)]
    exact ih (writeOf (net x) o) (fun y hy => hpre y (List.mem_cons_of_mem x hy))

theorem attempts_zipDriver (env : Env) (banner tryMsg : String) (urls : List String)
    (dest target : FPath) (okMsg failMsg : String) (w : World) :
    (zipDatasetDriver env banner tryMsg urls dest target okMsg failMsg w).attempts
      = w.attempts ++ (urls.takeWhile (fun u => !attemptSucceeds (env.net u))
          ++ (urls.find? (fun u => attemptSucceeds (env.net u))).toList) := by
  simp only [zipDatasetDriver]
  by_cases hs : (tryUrls env.net tryMsg urls dest (logMsg w banner)).2 = true
  · rw [if_pos hs, attempts_extractAndCleanup, tryUrls_attempts, attempts_logMsg]
  · rw [if_neg hs, attempts_logMsg, attempts_logMsg, tryUrls_attempts, attempts_logMsg]

theorem getFile_isSome_applyEntries (target : FPath) (es : List ZipEntry) (w : World)
    (q : FPath) (h : (getFile w q).isSome = true) :
    (getFile (applyEntries target es w) q).isSome = true := by
  rw [applyEntries_getFile]
  cases entryLookup target es q <;> simp [fileOr, h]

/-! ### The claims -/

/-- Claim C1, counterexample.  The claim states that when every candidate
attempt fails, no file exists at the destination afterward.  With every
candidate failing during the chunked write (after `open(destination,
'wb')`), the chest driver reports failure — yet the partial file of the
last attempt remains at the destination: the code never removes it. -/
theorem c1_counterexample :
    (∀ u ∈ chestUrls,
      attemptSucceeds ((fun _ => AttemptOutcome.failDuringWrite [7]) u) = false)
    ∧ chestFailMsg ∈ (download_chest_xray_dataset
        ⟨fun _ => AttemptOutcome.failDuringWrite [7], fun _ => ZipArchive.notZip,
          fun _ => true⟩ (World.mk [] [] [] [])).console
    ∧ getFile (download_chest_xray_dataset
        ⟨fun _ => AttemptOutcome.failDuringWrite [7], fun _ => ZipArchive.notZip,
          fun _ => true⟩ (World.mk [] [] [] [])) chestDest = some [7] := by
  decide

/-- Claim C1, amended.  If every candidate attempt fails, the retry loop
reports failure, and the drivers print their overall-failure report; the
destination is guaranteed absent afterward only when it was absent before
and every failure happened before the destination file was opened (a
transport error on the request or an HTTP error status) — an attempt that
fails mid-write leaves a partial file behind. -/
theorem c1_amended :
    (∀ (net : String → AttemptOutcome) (msg : String) (urls : List String)
        (dest : FPath) (w : World),
      (∀ u ∈ urls, attemptSucceeds (net u) = false) →
        (tryUrls net msg urls dest w).2 = false
        ∧ ((∀ u ∈ urls, failsBeforeOpen (net u) = true) → getFile w dest = none →
            getFile (tryUrls net msg urls dest w).1 dest = none))
    ∧ (∀ (env : Env) (w : World),
        (∀ u ∈ chestUrls, attemptSucceeds (env.net u) = false) →
          chestFailMsg ∈ (download_chest_xray_dataset env w).console)
    ∧ (∀ (env : Env) (w : World),
        (∀ u ∈ covidUrls, attemptSucceeds (env.net u) = false) →
          covidFailMsg ∈ (download_covid_dataset env w).console) := by
  refine ⟨?_, ?_, ?_⟩
  · intro net msg urls dest w hfail
    have hany : urls.any (fun u => attemptSucceeds (net u)) = false := by
      rw [List.any_eq_false]
      intro x hx
      rw [hfail x hx]
      simp
    constructor
    · rw [tryUrls_snd]; exact hany
    · intro hopen hnone
      rw [tryUrls_getFile, if_pos rfl, hnone, lastWritten_keep net urls none hopen]
  · intro env w hfail
    apply zipDriver_failMsg
    rw [List.any_eq_false]
    intro x hx
    rw [hfail x hx]
    simp
  · intro env w hfail
    apply zipDriver_failMsg
    rw [List.any_eq_false]
    intro x hx
    rw [hfail x hx]
    simp

/-- Claim C1, witness for the amended theorem at a concrete input. -/
theorem c1_amended_witness :
    (∀ u ∈ ["http://bad.example/a", "http://bad.example/b"],
      attemptSucceeds ((fun _ => AttemptOutcome.requestFails) u) = false)
    ∧ (tryUrls (fun _ => AttemptOutcome.requestFails) "Trying download source..."
        ["http://bad.example/a", "http://bad.example/b"] ["data", "f.zip"]
        (World.mk [] [] [] [])).2 = false
    ∧ getFile (tryUrls (fun _ => AttemptOutcome.requestFails) "Trying download source..."
        ["http://bad.example/a", "http://bad.example/b"] ["data", "f.zip"]
        (World.mk [] [] [] [])).1 ["data", "f.zip"] = none :=
  ⟨by decide,
   (c1_amended.1 _ _ _ _ _ (by decide)).1,
   (c1_amended.1 _ _ _ _ _ (by decide)).2 (by decide) (by decide)⟩

/-- Claim C2.  When the candidate list is `pre ++ u :: post`, every URL in
`pre` and `post` fails with a transport-level error and `u` alone yields a
valid payload, the loop reports success and the destination holds exactly
the payload bytes: the successful attempt opens the destination in
overwrite mode (`'wb'`), truncating whatever an earlier failed attempt
left there. -/
theorem c2_one_good_url (net : String → AttemptOutcome) (msg : String)
    (pre post : List String) (u : String) (payload : Bytes) (dest : FPath) (w : World)
    (hpre : ∀ x ∈ pre, attemptSucceeds (net x) = false)
    (hu : net u = AttemptOutcome.complete payload)
    (_hpost : ∀ x ∈ post, attemptSucceeds (net x) = false) :
    (tryUrls net msg (pre ++ u :: post) dest w).2 = true
    ∧ getFile (tryUrls net msg (pre ++ u :: post) dest w).1 dest = some payload := by
  constructor
  · rw [tryUrls_snd, List.any_append, List.any_cons]
    simp [hu, attemptSucceeds]
  · rw [tryUrls_getFile, if_pos rfl,
      lastWritten_first_success net pre u post payload _ hpre hu]

set_option maxRecDepth 20000 in
/-- Claim C2, witness: the spec example with a 200-byte payload on the
second URL gives a destination file of exactly 200 bytes. -/
theorem c2_one_good_url_witness :
    getFile (tryUrls
        (fun u => if u = "http://good.example/file.csv"
          then AttemptOutcome.complete (List.replicate 200 0)
          else AttemptOutcome.badStatus)
        "Trying download source..."
        ["http://bad.example/404", "http://good.example/file.csv"]
        ["data", "file.csv"] (World.mk [] [] [] [])).1 ["data", "file.csv"]
      = some (List.replicate 200 0)
    ∧ (getFile (tryUrls
        (fun u => if u = "http://good.example/file.csv"
          then AttemptOutcome.complete (List.replicate 200 0)
          else AttemptOutcome.badStatus)
        "Trying download source..."
        ["http://bad.example/404", "http://good.example/file.csv"]
        ["data", "file.csv"] (World.mk [] [] [] [])).1 ["data", "file.csv"]).map
        List.length = some 200 := by
  have h1 : getFile (tryUrls
      (fun u => if u = "http://good.example/file.csv"
        then AttemptOutcome.complete (List.replicate 200 0)
        else AttemptOutcome.badStatus)
      "Trying download source..."
      ["http://bad.example/404", "http://good.example/file.csv"]
      ["data", "file.csv"] (World.mk [] [] [] [])).1 ["data", "file.csv"]
      = some (List.replicate 200 0) := (c2_one_good_url
    (fun u => if u = "http://good.example/file.csv"
      then AttemptOutcome.complete (List.replicate 200 0)
      else AttemptOutcome.badStatus)
    "Trying download source..."
    ["http://bad.example/404"] [] "http://good.example/file.csv"
    (List.replicate 200 0) ["data", "file.csv"] (World.mk [] [] [] [])
    (by decide) (by decide) (by decide)).2
  exact ⟨h1, by rw [h1]; decide⟩

/-- Claim C3.  The retry loop (shared by both dataset drivers) attempts
exactly the longest failing front of the candidate list followed by the
first succeeding candidate, in list order — so every candidate position is
attempted at most once, no candidate after the first success is attempted,
and the loop reports success exactly when some candidate succeeds.  The
chest and COVID drivers inherit the trace on their hard-coded lists. -/
theorem c3_order_and_stop :
    (∀ (net : String → AttemptOutcome) (msg : String) (urls : List String)
        (dest : FPath) (w : World),
      (tryUrls net msg urls dest w).1.attempts
        = w.attempts ++ (urls.takeWhile (fun u => !attemptSucceeds (net u))
            ++ (urls.find? (fun u => attemptSucceeds (net u))).toList)
      ∧ (tryUrls net msg urls dest w).2 = urls.any (fun u => attemptSucceeds (net u)))
    ∧ (∀ (env : Env) (w : World),
        (download_chest_xray_dataset env w).attempts
          = w.attempts ++ (chestUrls.takeWhile (fun u => !attemptSucceeds (env.net u))
              ++ (chestUrls.find? (fun u => attemptSucceeds (env.net u))).toList))
    ∧ (∀ (env : Env) (w : World),
        (download_covid_dataset env w).attempts
          = w.attempts ++ (covidUrls.takeWhile (fun u => !attemptSucceeds (env.net u))
              ++ (covidUrls.find? (fun u => attemptSucceeds (env.net u))).toList)) :=
  ⟨fun net msg urls dest w =>
    ⟨tryUrls_attempts net msg urls dest w, tryUrls_snd net msg urls dest w⟩,
   fun env w => attempts_zipDriver env _ _ chestUrls chestDest chestTargetDir _ chestFailMsg w,
   fun env w => attempts_zipDriver env _ _ covidUrls covidDest covidTargetDir _ covidFailMsg w⟩

/-- Claim C4, counterexample.  The claim states that a corrupt archive
leaves the target directory unchanged.  A zip whose directory is readable
but whose member data is corrupt is detected only when `extractall`
reaches the damaged member, so the members extracted before it stay in
the target directory: here the corrupt archive adds `d/a`. -/
theorem c4_counterexample :
    zipRaises (ZipArchive.archive [(["a"], [1])] true) = true
    ∧ getFile (World.mk [] [(["d", "x.zip"], [0])] [] []) ["d", "a"] = none
    ∧ getFile (extractAndCleanup (fun _ => ZipArchive.archive [(["a"], [1])] true)
        ["d", "x.zip"] ["d"] "Extracted chest X-ray dataset"
        (World.mk [] [(["d", "x.zip"], [0])] [] [])) ["d", "a"] = some [1] := by
  decide

/-- Claim C4, amended.  For every corrupt archive the extraction block
logs the failure and swallows it (the block returns an ordinary state —
the equation below — so the process continues); the target directory is
unchanged when the archive is invalid at open (`BadZipFile` from
`zipfile.ZipFile`), while corruption detected mid-extraction leaves the
members extracted before the failure in the target directory. -/
theorem c4_amended (zipOf : Bytes → ZipArchive) (dest target : FPath) (okMsg : String)
    (w : World) (bytes : Bytes) (hb : getFile w dest = some bytes)
    (hr : zipRaises (zipOf bytes) = true) :
    extractAndCleanup zipOf dest target okMsg w
      = logMsg (applyEntries target (goodEntries (zipOf bytes)) w) "Error extracting"
    ∧ (zipOf bytes = ZipArchive.notZip →
        ∀ q, getFile (extractAndCleanup zipOf dest target okMsg w) q = getFile w q) := by
  have h1 : extractAndCleanup zipOf dest target okMsg w
      = logMsg (applyEntries target (goodEntries (zipOf bytes)) w) "Error extracting" := by
    rw [extractAndCleanup, hb]
    cases hz : zipOf bytes with
    | notZip => simp [extractAll, goodEntries, applyEntries, hz]
    | archive es c =>
      cases c with
      | true => simp [extractAll, goodEntries, hz]
      | false => rw [hz] at hr; simp [zipRaises] at hr
  refine ⟨h1, ?_⟩
  intro hz q
  rw [h1, hz]
  simp [goodEntries, applyEntries]

/-- Claim C4, witness for the amended theorem: an archive that is invalid
at open is logged, swallowed, and leaves the target untouched. -/
theorem c4_amended_witness :
    getFile (World.mk [] [(["d", "x.zip"], [0])] [] []) ["d", "x.zip"] = some [0]
    ∧ zipRaises ((fun _ => ZipArchive.notZip) ([0] : Bytes)) = true
    ∧ getFile (extractAndCleanup (fun _ => ZipArchive.notZip) ["d", "x.zip"] ["d"]
        "Extracted chest X-ray dataset" (World.mk [] [(["d", "x.zip"], [0])] [] []))
        ["d", "a"]
      = getFile (World.mk [] [(["d", "x.zip"], [0])] [] []) ["d", "a"] :=
  ⟨by decide, by decide,
   (c4_amended (fun _ => ZipArchive.notZip) ["d", "x.zip"] ["d"]
      "Extracted chest X-ray dataset" (World.mk [] [(["d", "x.zip"], [0])] [] [])
      [0] (by decide) (by decide)).2 rfl ["d", "a"]⟩

/-- Claim C5.  Given a valid zip at the downloaded path, the extraction
block writes every entry under the target directory and then deletes the
archive file: afterwards each entry is present with its contents and the
archive path no longer exists.  (The entry names are assumed distinct and
distinct from the archive path itself, as they are for the real
datasets.) -/
theorem c5_valid_zip_extracts_and_deletes (zipOf : Bytes → ZipArchive)
    (dest target : FPath) (okMsg : String) (w : World) (bytes : Bytes)
    (es : List ZipEntry) (hb : getFile w dest = some bytes)
    (hz : zipOf bytes = ZipArchive.archive es false)
    (hnd : (es.map (fun e => e.1)).Nodup)
    (hne : ∀ e ∈ es, target ++ e.1 ≠ dest) :
    (∀ e ∈ es, getFile (extractAndCleanup zipOf dest target okMsg w) (target ++ e.1)
        = some e.2)
    ∧ getFile (extractAndCleanup zipOf dest target okMsg w) dest = none := by
  have hr : zipRaises (zipOf bytes) = false := by rw [hz]; rfl
  constructor
  · intro e he
    rw [extractAndCleanup_getFile zipOf dest target okMsg w bytes hb (target ++ e.1),
      hr]
    rw [if_neg (by simp), if_neg (hne e he), hz]
    simp only [goodEntries]
    rw [entryLookup_of_mem_nodup target es e he hnd]
    rfl
  · rw [extractAndCleanup_getFile zipOf dest target okMsg w bytes hb dest, hr]
    rw [if_neg (by simp), if_pos rfl]

/-- Claim C5, witness at a concrete two-entry archive. -/
theorem c5_valid_zip_witness :
    getFile (extractAndCleanup
        (fun _ => ZipArchive.archive [(["a"], [1]), (["b"], [2])] false)
        ["d", "x.zip"] ["d"] "Extracted COVID-19 dataset"
        (World.mk [] [(["d", "x.zip"], [0])] [] [])) (["d"] ++ ["a"]) = some [1]
    ∧ getFile (extractAndCleanup
        (fun _ => ZipArchive.archive [(["a"], [1]), (["b"], [2])] false)
        ["d", "x.zip"] ["d"] "Extracted COVID-19 dataset"
        (World.mk [] [(["d", "x.zip"], [0])] [] [])) ["d", "x.zip"] = none :=
  ⟨(c5_valid_zip_extracts_and_deletes
      (fun _ => ZipArchive.archive [(["a"], [1]), (["b"], [2])] false)
      ["d", "x.zip"] ["d"] "Extracted COVID-19 dataset"
      (World.mk [] [(["d", "x.zip"], [0])] [] []) [0]
      [(["a"], [1]), (["b"], [2])] (by decide) (by decide) (by decide) (by decide)).1
      (["a"], [1]) (by decide),
   (c5_valid_zip_extracts_and_deletes
      (fun _ => ZipArchive.archive [(["a"], [1]), (["b"], [2])] false)
      ["d", "x.zip"] ["d"] "Extracted COVID-19 dataset"
      (World.mk [] [(["d", "x.zip"], [0])] [] []) [0]
      [(["a"], [1]), (["b"], [2])] (by decide) (by decide) (by decide) (by decide)).2⟩

/-- Claim C6.  `create_directory_structure` is idempotent: the first run
raises nothing, a second run raises nothing (every `mkdir` uses
`exist_ok=True`, so pre-existing directories are not an error), and the
second run leaves the directory tree — and the files — exactly as the
first run left them. -/
theorem c6_scaffolder_idempotent (w : World) :
    ∃ w1 w2, create_directory_structure w = (w1, Except.ok ())
      ∧ create_directory_structure w1 = (w2, Except.ok ())
      ∧ w2.dirs = w1.dirs ∧ w2.files = w1.files := by
  refine ⟨(create_directory_structure w).1,
    (create_directory_structure (create_directory_structure w).1).1, ?_, ?_, ?_, ?_⟩
  · rw [← create_directory_structure_snd w]
  · rw [← create_directory_structure_snd (create_directory_structure w).1]
  · show (createDirsLoop directoriesList (createDirsLoop directoriesList w).1).1.dirs
      = (createDirsLoop directoriesList w).1.dirs
    exact dirs_createDirsLoop_of_all_mem directoriesList (createDirsLoop directoriesList w).1
      (fun d hd s hs => mem_dirs_createDirsLoop_self directoriesList w d s hd hs)
  · show (createDirsLoop directoriesList (createDirsLoop directoriesList w).1).1.files
      = (createDirsLoop directoriesList w).1.files
    exact files_createDirsLoop directoriesList (createDirsLoop directoriesList w).1

/-- Claim C7.  Whatever the outside world does — every download may fail,
every archive may be corrupt, every `pip install` may exit non-zero — the
`main` of `data_downloader.py` and the `main` of `setup_new_device.py`
both run to completion and return `Except.ok ()`: no failure reaches the
return value, so the scripts terminate as if successful. -/
theorem c7_entry_points_return_ok (env : Env) (w : World) :
    (∃ w1, data_downloader_main env w = (w1, Except.ok ()))
    ∧ ∃ w2, setup_new_device_main env w = (w2, Except.ok ()) :=
  ⟨data_downloader_main_ok env w, setup_new_device_main_ok env w⟩

/-- Claim C8.  The three dataset routines write only under their own
disjoint destination directories: running any duplicate-free list of them
leaves every path inside a listed routine's region exactly as running
that one routine alone would, leaves every path outside all listed
regions untouched, and never changes the set of directories. -/
theorem c8_routines_independent (env : Env) (l : List Dataset) (hnd : l.Nodup)
    (w : World) :
    (∀ t ∈ l, ∀ q, regionOf t q = true →
      getFile (runDatasets env l w) q = getFile (runDataset env t w) q)
    ∧ (∀ q, (∀ t ∈ l, regionOf t q = false) →
      getFile (runDatasets env l w) q = getFile w q)
    ∧ (runDatasets env l w).dirs = w.dirs :=
  ⟨fun t ht q hq => runDatasets_region env l hnd w t ht q hq,
   fun q hq => runDatasets_frame env l w q hq,
   dirs_runDatasets env l w⟩

/-- Claim C8, witness: running samples then chest gives the chest region
the same contents as running chest alone. -/
theorem c8_routines_independent_witness :
    [Dataset.samples, Dataset.chest].Nodup
    ∧ regionOf Dataset.chest (chestTargetDir ++ ["e"]) = true
    ∧ getFile (runDatasets ⟨fun _ => AttemptOutcome.complete [3],
          fun _ => ZipArchive.archive [(["e"], [9])] false, fun _ => true⟩
        [Dataset.samples, Dataset.chest] (World.mk [] [] [] []))
        (chestTargetDir ++ ["e"])
      = getFile (runDataset ⟨fun _ => AttemptOutcome.complete [3],
          fun _ => ZipArchive.archive [(["e"], [9])] false, fun _ => true⟩
        Dataset.chest (World.mk [] [] [] [])) (chestTargetDir ++ ["e"]) :=
  ⟨by decide, by decide,
   (c8_routines_independent ⟨fun _ => AttemptOutcome.complete [3],
        fun _ => ZipArchive.archive [(["e"], [9])] false, fun _ => true⟩
      [Dataset.samples, Dataset.chest] (by decide) (World.mk [] [] [] [])).1
      Dataset.chest (by decide) (chestTargetDir ++ ["e"]) (by decide)⟩

/-- Claim C9.  `download_file_from_url` is total with respect to
exceptions: whatever the attempt outcome, it returns a Boolean — `true`
exactly when the try-body completed, and `false` whenever the body raised
(the request, the status check, or the chunked write) — never propagating
the exception. -/
theorem c9_downloader_total (net : String → AttemptOutcome) (url : String)
    (dest : FPath) (w : World) :
    (download_file_from_url net url dest w).2 = attemptSucceeds (net url)
    ∧ (∀ e : Exn, (downloadBody (net url) dest (recordAttempt w url)).2 = Except.error e →
        (download_file_from_url net url dest w).2 = false)
    ∧ ((downloadBody (net url) dest (recordAttempt w url)).2 = Except.ok () →
        (download_file_from_url net url dest w).2 = true) := by
  refine ⟨dfu_snd net url dest w, ?_, ?_⟩
  · intro e he
    rw [download_file_from_url]
    cases hb : downloadBody (net url) dest (recordAttempt w url) with
    | mk w1 r =>
      rw [hb] at he
      simp only at he
      subst he
      rfl
  · intro he
    rw [download_file_from_url]
    cases hb : downloadBody (net url) dest (recordAttempt w url) with
    | mk w1 r =>
      rw [hb] at he
      simp only at he
      subst he
      rfl

/-- Claim C9, witness: a raising body yields the Boolean `false`. -/
theorem c9_downloader_total_witness :
    (downloadBody ((fun _ => AttemptOutcome.requestFails) "u") ["d"]
      (recordAttempt (World.mk [] [] [] []) "u")).2 = Except.error Exn.requestExn
    ∧ (download_file_from_url (fun _ => AttemptOutcome.requestFails) "u" ["d"]
        (World.mk [] [] [] [])).2 = false :=
  ⟨rfl, (c9_downloader_total (fun _ => AttemptOutcome.requestFails) "u" ["d"]
      (World.mk [] [] [] [])).2.1 Exn.requestExn rfl⟩

/-- Claim C10.  When the extraction block's `extractall` raises, the
`os.remove` that follows it in the `try` body is skipped, so the
downloaded archive file still exists at its destination; the archive is
removed (the destination becomes absent) exactly when extraction
completes without raising. -/
theorem c10_archive_kept_on_failure (zipOf : Bytes → ZipArchive) (dest target : FPath)
    (okMsg : String) (w : World) (bytes : Bytes) (hb : getFile w dest = some bytes) :
    (zipRaises (zipOf bytes) = true →
      (getFile (extractAndCleanup zipOf dest target okMsg w) dest).isSome = true)
    ∧ (zipRaises (zipOf bytes) = false →
      getFile (extractAndCleanup zipOf dest target okMsg w) dest = none) := by
  constructor
  · intro hr
    rw [extractAndCleanup_getFile zipOf dest target okMsg w bytes hb dest, hr,
      if_pos rfl]
    cases entryLookup target (goodEntries (zipOf bytes)) dest <;> simp [fileOr, hb]
  · intro hr
    rw [extractAndCleanup_getFile zipOf dest target okMsg w bytes hb dest, hr]
    rw [if_neg (by simp), if_pos rfl]

/-- Claim C10, witness: after a corrupt-archive failure the zip file is
still on disk. -/
theorem c10_archive_kept_witness :
    getFile (World.mk [] [(["d", "x.zip"], [0])] [] []) ["d", "x.zip"] = some [0]
    ∧ zipRaises ((fun _ => ZipArchive.archive [(["a"], [1])] true) ([0] : Bytes)) = true
    ∧ (getFile (extractAndCleanup (fun _ => ZipArchive.archive [(["a"], [1])] true)
        ["d", "x.zip"] ["d"] "Extracted chest X-ray dataset"
        (World.mk [] [(["d", "x.zip"], [0])] [] [])) ["d", "x.zip"]).isSome = true :=
  ⟨by decide, by decide,
   (c10_archive_kept_on_failure (fun _ => ZipArchive.archive [(["a"], [1])] true)
      ["d", "x.zip"] ["d"] "Extracted chest X-ray dataset"
      (World.mk [] [(["d", "x.zip"], [0])] [] []) [0] (by decide)).1 (by decide)⟩
